import Mathlib

/-! Windows fatal-error shim (`src/hotspot/os/windows/vmError_windows.cpp`).

A shallow embedding of the `RaiseFailFastException` shim and of the small
`VMError` helpers that live next to it, followed by the properties of the
shim that the design document states.

Conventions of the embedding.

* `DWORD`, `UINT` and `ULONG_PTR` values are natural numbers. The routine does
  no arithmetic on them: it only tests, ORs and copies them, and the one cast
  of a `DWORD` to `UINT` keeps the width, so no reduction modulo `2^32` is
  needed except for the literal `(UINT)-1`.
* A pointer that may be null is an `Option`; a `PVOID` that is only compared
  with null and stored is a natural number, `0` being null.
* Calls into the operating system are recorded, in program order, in the
  `calls` field of the `World`; every subscript applied to one of the two
  parameter arrays is recorded in `accesses`.
* `TerminateProcess` on the current process and `::abort()` end the run.
  The two OS calls that may keep control for ever (`RaiseFailFastException`
  itself, and `RaiseException` when some earlier handler ends the process)
  are driven by the `Env`.
-/

namespace VmErrorWindows

/-! ## Constants defined in the file (lines 35-47) -/

def FAIL_FAST_GENERATE_EXCEPTION_ADDRESS : Nat := 0x0001

def FAIL_FAST_NO_HARD_ERROR_DLG : Nat := 0x0002

def STATUS_STACK_BUFFER_OVERRUN : Nat := 0xC0000409

def STATUS_FAIL_FAST_EXCEPTION : Nat := 0xC0000602

/-- The literal `(UINT)-1` of line 66: minus one converted to a 32-bit unsigned. -/
def UINT_MINUS_ONE : Nat := (((-1 : Int)) % (2 : Int) ^ 32).toNat

/-- Constants and build switches that the file uses but takes from headers
outside of it (`winnt.h`, `winbase.h`, the HotSpot build). They are parameters
of the embedding: nothing below depends on their values. -/
structure WinSdk where
  EXCEPTION_NONCONTINUABLE : Nat
  EXCEPTION_MAXIMUM_PARAMETERS : Nat
  SEM_NOGPFAULTERRORBOX : Nat
  EXCEPTION_ACCESS_VIOLATION : Nat
  EXCEPTION_IN_PAGE_ERROR : Nat
  /-- Whether `_MSC_VER` is defined (lines 84, 94). -/
  MSC_VER : Bool
  /-- Value of `INCLUDE_CDS` (line 142). -/
  INCLUDE_CDS : Bool
  /-- Whether `CAN_SHOW_REGISTERS_ON_ASSERT` is defined (line 174). -/
  CAN_SHOW_REGISTERS_ON_ASSERT : Bool
deriving DecidableEq, Repr

/-- The values the Windows SDK gives to the constants, with the Microsoft
compiler and both optional features compiled in; used for concrete runs. -/
def winnt : WinSdk where
  EXCEPTION_NONCONTINUABLE := 0x1
  EXCEPTION_MAXIMUM_PARAMETERS := 15
  SEM_NOGPFAULTERRORBOX := 0x0002
  EXCEPTION_ACCESS_VIOLATION := 0xC0000005
  EXCEPTION_IN_PAGE_ERROR := 0xC0000006
  MSC_VER := true
  INCLUDE_CDS := true
  CAN_SHOW_REGISTERS_ON_ASSERT := true

/-- The same constants for a toolchain other than the Microsoft compiler. -/
def winntPortable : WinSdk := { winnt with MSC_VER := false }

/-! ## Data model -/

/-- The OS fault record `EXCEPTION_RECORD`. `ExceptionInformation` is the
array of auxiliary parameters; `ExceptionRecord` is the chained-record
pointer, which the file only copies. -/
structure EXCEPTION_RECORD where
  ExceptionCode : Nat
  ExceptionFlags : Nat
  ExceptionRecord : Nat
  ExceptionAddress : Nat
  NumberParameters : Nat
  ExceptionInformation : List Nat
deriving DecidableEq, Repr

/-- Subscript `er.ExceptionInformation[i]`. -/
def EXCEPTION_RECORD.information (er : EXCEPTION_RECORD) (i : Nat) : Nat :=
  er.ExceptionInformation.getD i 0

/-- The register snapshot `CONTEXT`; the file never looks inside it. -/
structure CONTEXT where
  registers : List Nat
deriving DecidableEq, Repr

/-- The result of `ZeroMemory(&er, sizeof(er))` (line 91). -/
def zeroRecord (sdk : WinSdk) : EXCEPTION_RECORD where
  ExceptionCode := 0
  ExceptionFlags := 0
  ExceptionRecord := 0
  ExceptionAddress := 0
  NumberParameters := 0
  ExceptionInformation := List.replicate sdk.EXCEPTION_MAXIMUM_PARAMETERS 0

/-- A call into the operating system or the C runtime, with its arguments.
`lpArguments` is `none` for a null pointer and otherwise the contents of the
local array `params`, whose slots are `none` while uninitialised. -/
inductive OsCall where
  | RaiseFailFastException (pExceptionRecord : Option EXCEPTION_RECORD)
      (pContextRecord : Option CONTEXT) (dwFlags : Nat)
  | SetErrorMode (uMode : Nat)
  | RaiseException (dwExceptionCode dwExceptionFlags nNumberOfArguments : Nat)
      (lpArguments : Option (List (Option Nat)))
  | TerminateProcess (uExitCode : Nat)
  | abort
deriving DecidableEq, Repr

/-- A subscript applied to one of the two parameter arrays of lines 104-108. -/
inductive Access where
  | readInformation (i : Nat)
  | writeParams (i : Nat)
deriving DecidableEq, Repr

/-- The index of an array access. -/
def Access.index : Access → Nat
  | .readInformation i => i
  | .writeParams i => i

/-- What the process state the routine can touch looks like. -/
structure World where
  errorMode : Nat
  calls : List OsCall
  accesses : List Access
deriving DecidableEq, Repr

/-- How a run stops for good. -/
inductive Halt where
  /-- The call `TerminateProcess(GetCurrentProcess(), uExitCode)` was made. -/
  | terminated (uExitCode : Nat)
  /-- The call `::abort()` was made. -/
  | aborted
  /-- An OS call took control and never handed it back. -/
  | noReturn
deriving DecidableEq, Repr

/-- Result of running a piece of code: either control reaches its end with a
value, or the run has stopped for good. -/
inductive Outcome (α : Type) where
  | returned (a : α) (w : World)
  | halted (h : Halt) (w : World)
deriving DecidableEq, Repr

/-- The world in which a run ends. -/
def Outcome.world {α : Type} : Outcome α → World
  | .returned _ w => w
  | .halted _ w => w

/-- Code that runs in a world. -/
def M (α : Type) : Type := World → Outcome α

instance : Monad M where
  pure a := fun w => .returned a w
  bind m f := fun w =>
    match m w with
    | .returned a w1 => f a w1
    | .halted h w1 => .halted h w1

/-- How the guarded `RaiseException` of lines 111-115 comes back. -/
inductive RaiseOutcome where
  /-- The `__except (EXCEPTION_EXECUTE_HANDLER)` block caught the exception. -/
  | caught
  /-- Some other handler dealt with it and `RaiseException` returned. -/
  | resumed
  /-- Control never came back (the process ended during dispatch). -/
  | noReturn
deriving DecidableEq, Repr

/-- Everything outside of the routine that decides how a run goes. -/
structure Env where
  sdk : WinSdk
  /-- Result of the cached `GetProcAddress` lookup (lines 60-62): `none` when
  kernel32 has no `RaiseFailFastException`; `some r` when it has, `r` telling
  whether a call of it hands control back. -/
  pRaiseFailFastException : Option Bool
  raiseOutcome : RaiseOutcome
  /-- Value of `_ReturnAddress()`. -/
  returnAddress : Nat
  /-- Value of `(PVOID)RaiseFailFastException_Runtime`. -/
  routineAddress : Nat
deriving DecidableEq, Repr

/-! ## Operating-system primitives -/

def logCall (c : OsCall) (w : World) : World :=
  { w with calls := w.calls ++ [c] }

def logAccess (a : Access) (w : World) : World :=
  { w with accesses := w.accesses ++ [a] }

/-- The call `TerminateProcess(GetCurrentProcess(), uExitCode)`: ends the process. -/
def TerminateProcess (uExitCode : Nat) : M Unit := fun w =>
  .halted (.terminated uExitCode) (logCall (.TerminateProcess uExitCode) w)

/-- The call `::abort()`. -/
def abort : M Unit := fun w => .halted .aborted (logCall .abort w)

/-- The call `GetErrorMode()`. -/
def GetErrorMode : M Nat := fun w => .returned w.errorMode w

/-- The call `SetErrorMode(uMode)`: installs the mode and returns the previous one. -/
def SetErrorMode (uMode : Nat) : M Nat := fun w =>
  .returned w.errorMode (logCall (.SetErrorMode uMode) { w with errorMode := uMode })

/-- The call `p(pExceptionRecord, pContextRecord, dwFlags)` through the
function pointer; `handsBack` is what the lookup says about this OS. -/
def callFailFast (handsBack : Bool) (pExceptionRecord : Option EXCEPTION_RECORD)
    (pContextRecord : Option CONTEXT) (dwFlags : Nat) : M Unit := fun w =>
  let w1 := logCall (.RaiseFailFastException pExceptionRecord pContextRecord dwFlags) w
  if handsBack then .returned () w1 else .halted .noReturn w1

/-- The statement `__try { RaiseException(..) } __except (EXCEPTION_EXECUTE_HANDLER) { }`. -/
def guardedRaiseException (env : Env) (dwExceptionCode dwExceptionFlags nNumberOfArguments : Nat)
    (lpArguments : Option (List (Option Nat))) : M Unit := fun w =>
  let w1 := logCall
    (.RaiseException dwExceptionCode dwExceptionFlags nNumberOfArguments lpArguments) w
  match env.raiseOutcome with
  | .caught => .returned () w1
  | .resumed => .returned () w1
  | .noReturn => .halted .noReturn w1

/-- The subscript `er.ExceptionInformation[i]`, recorded. -/
def readInformation (er : EXCEPTION_RECORD) (i : Nat) : M Nat := fun w =>
  .returned (er.information i) (logAccess (.readInformation i) w)

/-- The assignment `params[i] = v`, recorded. -/
def writeParams (params : List (Option Nat)) (i v : Nat) : M (List (Option Nat)) := fun w =>
  .returned (params.set i (some v)) (logAccess (.writeParams i) w)

/-! ## The shim (lines 56-119) -/

/-- Lines 76-101: the local record `er` built from the caller's record. -/
def synthesizeRecord (env : Env) (pExceptionRecord : Option EXCEPTION_RECORD)
    (dwFlags : Nat) : EXCEPTION_RECORD :=
  match pExceptionRecord with
  | some rec =>
    let er := rec
    let er := { er with ExceptionFlags := er.ExceptionFlags ||| env.sdk.EXCEPTION_NONCONTINUABLE }
    let er := if er.ExceptionCode = 0 then
        { er with ExceptionCode := STATUS_STACK_BUFFER_OVERRUN } else er
    if er.ExceptionAddress = 0 ∧ dwFlags &&& FAIL_FAST_GENERATE_EXCEPTION_ADDRESS ≠ 0 then
      if env.sdk.MSC_VER then
        { er with ExceptionAddress := env.returnAddress }
      else
        { er with ExceptionAddress := env.routineAddress }
    else er
  | none =>
    let er := zeroRecord env.sdk
    let er := { er with ExceptionCode := STATUS_STACK_BUFFER_OVERRUN }
    let er := { er with ExceptionFlags := env.sdk.EXCEPTION_NONCONTINUABLE }
    if env.sdk.MSC_VER then
      if dwFlags &&& FAIL_FAST_GENERATE_EXCEPTION_ADDRESS ≠ 0 then
        { er with ExceptionAddress := env.returnAddress }
      else er
    else er

/-- Line 108: the body of the copy loop, for one value of `i`. -/
def copyStep (er : EXCEPTION_RECORD) (params : List (Option Nat)) (i : Nat) :
    M (List (Option Nat)) := do
  let v ← readInformation er i
  writeParams params i v

/-- Line 108: `for (DWORD i = 0; i < nparams; ++i) params[i] = er.ExceptionInformation[i];`. -/
def copyLoop (er : EXCEPTION_RECORD) (nparams : Nat) (params : List (Option Nat)) :
    M (List (Option Nat)) :=
  (List.range nparams).foldlM (fun ps i => copyStep er ps i) params

/-- Lines 104-109: the local `params` array and `nparams` after the copy. -/
def copyParams (sdk : WinSdk) (er : EXCEPTION_RECORD) : M (Nat × List (Option Nat)) := do
  let params : List (Option Nat) := List.replicate sdk.EXCEPTION_MAXIMUM_PARAMETERS none
  let nparams := 0
  if er.NumberParameters ≤ sdk.EXCEPTION_MAXIMUM_PARAMETERS then
    let nparams := er.NumberParameters
    let params ← copyLoop er nparams params
    pure (nparams, params)
  else
    pure (nparams, params)

/-- Lines 56-119: `RaiseFailFastException_Runtime`. The value `()` is returned
exactly when control reaches the closing brace of the function. -/
def RaiseFailFastException_Runtime (env : Env) (pExceptionRecord : Option EXCEPTION_RECORD)
    (pContextRecord : Option CONTEXT) (dwFlags : Nat) : M Unit := do
  match env.pRaiseFailFastException with
  | some handsBack =>
    callFailFast handsBack pExceptionRecord pContextRecord dwFlags
    TerminateProcess UINT_MINUS_ONE
  | none => pure ()
  if dwFlags &&& FAIL_FAST_NO_HARD_ERROR_DLG ≠ 0 then
    let mode ← GetErrorMode
    let _ ← SetErrorMode (mode ||| env.sdk.SEM_NOGPFAULTERRORBOX)
  let er := synthesizeRecord env pExceptionRecord dwFlags
  let (nparams, params) ← copyParams env.sdk er
  guardedRaiseException env er.ExceptionCode er.ExceptionFlags nparams
    (if nparams ≠ 0 then some params else none)
  TerminateProcess er.ExceptionCode

/-! ## The `VMError` entry points (lines 139-184) -/

/-- Line 166: the flags `raise_fail_fast` computes. -/
def raise_fail_fast_flags (exrecord : Option EXCEPTION_RECORD) : Nat :=
  if exrecord = none then FAIL_FAST_GENERATE_EXCEPTION_ADDRESS else 0

/-- Lines 165-171: `VMError::raise_fail_fast`. -/
def raise_fail_fast (env : Env) (exrecord : Option EXCEPTION_RECORD)
    (context : Option CONTEXT) : M Unit := do
  let flags := raise_fail_fast_flags exrecord
  let exception_record := exrecord
  let ctx := context
  RaiseFailFastException_Runtime env exception_record ctx flags
  abort

/-- Lines 150-151: the hint text. -/
def cdsHint : String :=
  "Error accessing class data sharing archive. " ++
  "Mapped file inaccessible during execution, possible disk/network problem."

/-- Lines 141-157: `VMError::check_failing_cds_access`. The stream is the list
of the strings printed to it so far; `is_using_archive` and
`is_in_shared_metaspace` are the answers of the archive subsystem. -/
def check_failing_cds_access (sdk : WinSdk) (is_using_archive : Bool)
    (is_in_shared_metaspace : Nat → Bool) (st : List String)
    (siginfo : Option EXCEPTION_RECORD) : List String :=
  if sdk.INCLUDE_CDS then
    match siginfo with
    | some er =>
      if is_using_archive then
        if er.ExceptionCode = sdk.EXCEPTION_IN_PAGE_ERROR ∧ er.NumberParameters ≥ 2 then
          let fault_addr := er.information 1
          if fault_addr ≠ 0 then
            if is_in_shared_metaspace fault_addr then
              st ++ [cdsHint]
            else st
          else st
        else st
      else st
    | none => st
  else st

/-- Lines 173-184: `VMError::was_assert_poison_crash`. -/
def was_assert_poison_crash (sdk : WinSdk) (g_assert_poison_read_only : Nat)
    (siginfo : Option EXCEPTION_RECORD) : Bool :=
  if sdk.CAN_SHOW_REGISTERS_ON_ASSERT then
    match siginfo with
    | none => false
    | some er =>
      if er.ExceptionCode = sdk.EXCEPTION_ACCESS_VIOLATION ∧ er.NumberParameters ≥ 2 then
        decide (er.information 1 = g_assert_poison_read_only)
      else false
  else false

/-! ## Closed forms of the run -/

/-- The array accesses of the copy loop over the indices `l`, in program order. -/
def loopAccesses (l : List Nat) : List Access :=
  l.flatMap fun i => [Access.readInformation i, Access.writeParams i]

/-- The `params` array after the loop has run over the indices `l`. -/
def copiedInto (er : EXCEPTION_RECORD) (l : List Nat) (params : List (Option Nat)) :
    List (Option Nat) :=
  l.foldl (fun ps i => ps.set i (some (er.information i))) params

/-- The value of `nparams` after lines 105-109. -/
def copiedCount (sdk : WinSdk) (er : EXCEPTION_RECORD) : Nat :=
  if er.NumberParameters ≤ sdk.EXCEPTION_MAXIMUM_PARAMETERS then er.NumberParameters else 0

/-- The contents of `params` after lines 104-109. -/
def copiedArray (sdk : WinSdk) (er : EXCEPTION_RECORD) : List (Option Nat) :=
  copiedInto er (List.range (copiedCount sdk er))
    (List.replicate sdk.EXCEPTION_MAXIMUM_PARAMETERS none)

/-- The world after the optional error-mode change of lines 71-74. -/
def afterErrorMode (sdk : WinSdk) (dwFlags : Nat) (w : World) : World :=
  if dwFlags &&& FAIL_FAST_NO_HARD_ERROR_DLG ≠ 0 then
    logCall (.SetErrorMode (w.errorMode ||| sdk.SEM_NOGPFAULTERRORBOX))
      { w with errorMode := w.errorMode ||| sdk.SEM_NOGPFAULTERRORBOX }
  else w

/-- The `RaiseException` call of line 112 for the local record `er`. -/
def raiseCall (sdk : WinSdk) (er : EXCEPTION_RECORD) : OsCall :=
  .RaiseException er.ExceptionCode er.ExceptionFlags (copiedCount sdk er)
    (if copiedCount sdk er ≠ 0 then some (copiedArray sdk er) else none)

/-- The world at the moment `RaiseException` has been called on the fallback path. -/
def afterRaise (env : Env) (pExceptionRecord : Option EXCEPTION_RECORD) (dwFlags : Nat)
    (w : World) : World :=
  let er := synthesizeRecord env pExceptionRecord dwFlags
  let w1 := afterErrorMode env.sdk dwFlags w
  logCall (raiseCall env.sdk er)
    { w1 with accesses := w1.accesses ++ loopAccesses (List.range (copiedCount env.sdk er)) }

/-! ## Conditions stated by the design document -/

/-- The exit status the design document prescribes on the fallback path: the
code of the supplied record when it is not zero, the sentinel otherwise. -/
def faultExitStatus (pExceptionRecord : Option EXCEPTION_RECORD) : Nat :=
  match pExceptionRecord with
  | some rec => if rec.ExceptionCode ≠ 0 then rec.ExceptionCode else 0xC0000409
  | none => 0xC0000409

/-- The condition under which the design document lets the hint be printed. -/
def cdsHintDue (sdk : WinSdk) (is_using_archive : Bool) (is_in_shared_metaspace : Nat → Bool)
    (siginfo : Option EXCEPTION_RECORD) : Prop :=
  ∃ er, siginfo = some er ∧ sdk.INCLUDE_CDS = true ∧ is_using_archive = true ∧
    er.ExceptionCode = sdk.EXCEPTION_IN_PAGE_ERROR ∧ 2 ≤ er.NumberParameters ∧
    er.information 1 ≠ 0 ∧ is_in_shared_metaspace (er.information 1) = true

/-! ## Concrete inputs -/

/-- An OS without the fail-fast entry point (XP, Vista), Microsoft compiler. -/
def envVista : Env where
  sdk := winnt
  pRaiseFailFastException := none
  raiseOutcome := .caught
  returnAddress := 0x401000
  routineAddress := 0x402000

/-- The same OS, built with another toolchain. -/
def envVistaPortable : Env := { envVista with sdk := winntPortable }

/-- An OS whose fail-fast entry point breaks its contract and returns. -/
def envModern : Env := { envVista with pRaiseFailFastException := some true }

/-- An access violation reading address `0x10`, with no code-zero surprises. -/
def recAccessViolation : EXCEPTION_RECORD where
  ExceptionCode := 0xC0000005
  ExceptionFlags := 0
  ExceptionRecord := 0
  ExceptionAddress := 0x7000
  NumberParameters := 2
  ExceptionInformation := [0, 0x10, 0, 0, 0, 0, 0, 0, 0, 0, 0, 0, 0, 0, 0]

/-- A record with code zero, no address and a flag bit other than bit 0. -/
def recZeroCode : EXCEPTION_RECORD where
  ExceptionCode := 0
  ExceptionFlags := 4
  ExceptionRecord := 0
  ExceptionAddress := 0
  NumberParameters := 1
  ExceptionInformation := [9, 0, 0, 0, 0, 0, 0, 0, 0, 0, 0, 0, 0, 0, 0]

/-- A record that claims more parameters than the array holds. -/
def recTooMany : EXCEPTION_RECORD := { recAccessViolation with NumberParameters := 16 }

/-- The record of the end-to-end scenario: sentinel code, nothing else. -/
def recSentinel : EXCEPTION_RECORD where
  ExceptionCode := 0xC0000409
  ExceptionFlags := 0
  ExceptionRecord := 0
  ExceptionAddress := 0
  NumberParameters := 0
  ExceptionInformation := [0, 0, 0, 0, 0, 0, 0, 0, 0, 0, 0, 0, 0, 0, 0]

def ctxSample : CONTEXT := { registers := [1, 2, 3] }

def worldStart : World := { errorMode := 1, calls := [], accesses := [] }

/-- An in-page error on address `0x10`. -/
def recInPageError : EXCEPTION_RECORD := { recAccessViolation with ExceptionCode := 0xC0000006 }

/-! ## Running the embedding -/

theorem M.bind_run {α β : Type} (m : M α) (f : α → M β) (w : World) :
    (m >>= f) w = match m w with
      | .returned a w1 => f a w1
      | .halted h w1 => .halted h w1 := rfl

theorem M.pure_run {α : Type} (a : α) (w : World) : (pure a : M α) w = .returned a w := rfl

theorem copyStep_run (er : EXCEPTION_RECORD) (params : List (Option Nat)) (i : Nat) (w : World) :
    copyStep er params i w =
      .returned (params.set i (some (er.information i)))
        { w with accesses := w.accesses ++ [Access.readInformation i, Access.writeParams i] } := by
  simp [copyStep, M.bind_run, readInformation, writeParams, logAccess]

theorem foldlM_copyStep_run (er : EXCEPTION_RECORD) (l : List Nat) :
    ∀ (params : List (Option Nat)) (w : World),
      l.foldlM (fun ps i => copyStep er ps i) params w =
        .returned (copiedInto er l params)
          { w with accesses := w.accesses ++ loopAccesses l } := by
  induction l with
  | nil => intro params w; simp [copiedInto, loopAccesses, M.pure_run]
  | cons i l ih =>
    intro params w
    rw [List.foldlM_cons, M.bind_run, copyStep_run]
    simp only [ih]
    simp [copiedInto, loopAccesses]

theorem copyLoop_run (er : EXCEPTION_RECORD) (n : Nat) (params : List (Option Nat)) (w : World) :
    copyLoop er n params w =
      .returned (copiedInto er (List.range n) params)
        { w with accesses := w.accesses ++ loopAccesses (List.range n) } :=
  foldlM_copyStep_run er (List.range n) params w

theorem copyParams_run (sdk : WinSdk) (er : EXCEPTION_RECORD) (w : World) :
    copyParams sdk er w =
      .returned (copiedCount sdk er, copiedArray sdk er)
        { w with accesses := w.accesses ++ loopAccesses (List.range (copiedCount sdk er)) } := by
  unfold copyParams copiedArray copiedCount
  by_cases h : er.NumberParameters ≤ sdk.EXCEPTION_MAXIMUM_PARAMETERS
  · simp [h, M.bind_run, M.pure_run, copyLoop_run]
  · simp [h, M.pure_run, copiedInto, loopAccesses]

/-- The whole run of the shim when the OS has no fail-fast entry point. -/
theorem runtime_fallback_run (env : Env) (h : env.pRaiseFailFastException = none)
    (pExceptionRecord : Option EXCEPTION_RECORD) (pContextRecord : Option CONTEXT)
    (dwFlags : Nat) (w : World) :
    RaiseFailFastException_Runtime env pExceptionRecord pContextRecord dwFlags w =
      if env.raiseOutcome = .noReturn then
        .halted .noReturn (afterRaise env pExceptionRecord dwFlags w)
      else
        .halted (.terminated (synthesizeRecord env pExceptionRecord dwFlags).ExceptionCode)
          (logCall (.TerminateProcess (synthesizeRecord env pExceptionRecord dwFlags).ExceptionCode)
            (afterRaise env pExceptionRecord dwFlags w)) := by
  unfold RaiseFailFastException_Runtime afterRaise afterErrorMode raiseCall
  by_cases hf : dwFlags &&& FAIL_FAST_NO_HARD_ERROR_DLG = 0 <;>
  cases hr : env.raiseOutcome <;>
  simp [h, hf, hr, M.bind_run, M.pure_run, copyParams_run, guardedRaiseException, TerminateProcess,
    GetErrorMode, SetErrorMode, logCall]

/-- The whole run of the shim when the OS has the fail-fast entry point. -/
theorem runtime_preferred_run (env : Env) (handsBack : Bool)
    (h : env.pRaiseFailFastException = some handsBack)
    (pExceptionRecord : Option EXCEPTION_RECORD) (pContextRecord : Option CONTEXT)
    (dwFlags : Nat) (w : World) :
    RaiseFailFastException_Runtime env pExceptionRecord pContextRecord dwFlags w =
      if handsBack then
        .halted (.terminated UINT_MINUS_ONE)
          { w with calls := w.calls ++
              [.RaiseFailFastException pExceptionRecord pContextRecord dwFlags,
               .TerminateProcess UINT_MINUS_ONE] }
      else
        .halted .noReturn
          { w with calls := w.calls ++
              [.RaiseFailFastException pExceptionRecord pContextRecord dwFlags] } := by
  unfold RaiseFailFastException_Runtime
  cases handsBack <;>
  simp [h, M.bind_run, callFailFast, TerminateProcess, logCall]

/-! ## Facts about the synthesized record and the copied parameters -/

theorem synthesizeRecord_some_flags (env : Env) (rec : EXCEPTION_RECORD) (dwFlags : Nat) :
    (synthesizeRecord env (some rec) dwFlags).ExceptionFlags =
      rec.ExceptionFlags ||| env.sdk.EXCEPTION_NONCONTINUABLE := by
  unfold synthesizeRecord
  simp only []
  split_ifs <;> rfl

theorem synthesizeRecord_some_code (env : Env) (rec : EXCEPTION_RECORD) (dwFlags : Nat) :
    (synthesizeRecord env (some rec) dwFlags).ExceptionCode =
      if rec.ExceptionCode = 0 then STATUS_STACK_BUFFER_OVERRUN else rec.ExceptionCode := by
  unfold synthesizeRecord
  simp only []
  split_ifs <;> simp_all

theorem synthesizeRecord_some_numberParameters (env : Env) (rec : EXCEPTION_RECORD)
    (dwFlags : Nat) :
    (synthesizeRecord env (some rec) dwFlags).NumberParameters = rec.NumberParameters := by
  unfold synthesizeRecord
  simp only []
  split_ifs <;> rfl

theorem synthesizeRecord_some_information (env : Env) (rec : EXCEPTION_RECORD)
    (dwFlags : Nat) (i : Nat) :
    (synthesizeRecord env (some rec) dwFlags).information i = rec.information i := by
  unfold synthesizeRecord EXCEPTION_RECORD.information
  simp only []
  split_ifs <;> rfl

theorem synthesizeRecord_none_code (env : Env) (dwFlags : Nat) :
    (synthesizeRecord env none dwFlags).ExceptionCode = STATUS_STACK_BUFFER_OVERRUN := by
  unfold synthesizeRecord
  simp only []
  split_ifs <;> rfl

theorem loopAccesses_index_lt (n : Nat) (a : Access) (h : a ∈ loopAccesses (List.range n)) :
    a.index < n := by
  simp only [loopAccesses, List.mem_flatMap, List.mem_range] at h
  obtain ⟨i, hi, ha⟩ := h
  simp only [List.mem_cons, List.mem_singleton, List.not_mem_nil, or_false] at ha
  rcases ha with rfl | rfl <;> exact hi

theorem copiedInto_range (er : EXCEPTION_RECORD) (m : Nat) :
    ∀ n, n ≤ m →
      copiedInto er (List.range n) (List.replicate m none) =
        (List.range n).map (fun i => some (er.information i)) ++ List.replicate (m - n) none := by
  intro n
  induction n with
  | zero => intro _; simp [copiedInto]
  | succ n ih =>
    intro h
    have hn : n ≤ m := Nat.le_of_succ_le h
    have hm : m - n = (m - (n + 1)) + 1 := by omega
    have hstep : copiedInto er (List.range (n + 1)) (List.replicate m none) =
        (copiedInto er (List.range n) (List.replicate m none)).set n (some (er.information n)) := by
      simp [copiedInto, List.range_succ, List.foldl_append]
    rw [hstep, ih hn, List.set_append, hm]
    simp [List.range_succ, List.replicate_succ]

theorem map_information_range (er : EXCEPTION_RECORD) (n : Nat)
    (h : n ≤ er.ExceptionInformation.length) :
    (List.range n).map (fun i => some (er.information i)) =
      (er.ExceptionInformation.take n).map some := by
  apply List.ext_getElem?
  intro i
  by_cases hi : i < n
  · have hi2 : i < er.ExceptionInformation.length := Nat.lt_of_lt_of_le hi h
    simp [List.getElem?_map, List.getElem?_range, List.getElem?_take, hi, hi2,
      EXCEPTION_RECORD.information, List.getD_eq_getElem?_getD]
  · have hi2 : n ≤ i := Nat.le_of_not_lt hi
    simp [List.getElem?_map, List.getElem?_range, List.getElem?_take, hi, hi2]

theorem synthesizeRecord_code (env : Env) (pExceptionRecord : Option EXCEPTION_RECORD)
    (dwFlags : Nat) :
    (synthesizeRecord env pExceptionRecord dwFlags).ExceptionCode =
      faultExitStatus pExceptionRecord := by
  cases pExceptionRecord with
  | none => rw [synthesizeRecord_none_code]; rfl
  | some rec =>
    rw [synthesizeRecord_some_code]
    by_cases h : rec.ExceptionCode = 0 <;> simp [faultExitStatus, h, STATUS_STACK_BUFFER_OVERRUN]

/-! ## The termination guarantee -/

/-- C1: for every invocation of `RaiseFailFastException_Runtime` (record and
context supplied or not, any flags, fail-fast entry point present or not,
whichever way the entry point and the general raise behave) control never
reaches the end of the function: the run stops, either in a `TerminateProcess`
call, which is then the last call made, or inside an OS call that kept
control, and the latter only when the environment says that call keeps
control. The same holds for `VMError::raise_fail_fast`, whose run is the run
of the shim. -/
theorem RaiseFailFastException_Runtime_never_returns (env : Env)
    (pExceptionRecord : Option EXCEPTION_RECORD) (pContextRecord : Option CONTEXT)
    (dwFlags : Nat) (w : World) :
    (∀ (a : Unit) (w1 : World),
      RaiseFailFastException_Runtime env pExceptionRecord pContextRecord dwFlags w ≠
        .returned a w1) ∧
    (∃ (h : Halt) (w1 : World),
      RaiseFailFastException_Runtime env pExceptionRecord pContextRecord dwFlags w =
        .halted h w1 ∧
      ((∃ s, h = .terminated s ∧ w1.calls.getLast? = some (.TerminateProcess s)) ∨
       (h = .noReturn ∧ (env.pRaiseFailFastException = some false ∨
          (env.pRaiseFailFastException = none ∧ env.raiseOutcome = .noReturn))))) ∧
    raise_fail_fast env pExceptionRecord pContextRecord w =
      RaiseFailFastException_Runtime env pExceptionRecord pContextRecord
        (raise_fail_fast_flags pExceptionRecord) w ∧
    (∀ (a : Unit) (w1 : World),
      raise_fail_fast env pExceptionRecord pContextRecord w ≠ .returned a w1) := by
  have key : ∀ flags : Nat, ∃ (h : Halt) (w1 : World),
      RaiseFailFastException_Runtime env pExceptionRecord pContextRecord flags w =
        .halted h w1 ∧
      ((∃ s, h = .terminated s ∧ w1.calls.getLast? = some (.TerminateProcess s)) ∨
       (h = .noReturn ∧ (env.pRaiseFailFastException = some false ∨
          (env.pRaiseFailFastException = none ∧ env.raiseOutcome = .noReturn)))) := by
    intro flags
    cases hp : env.pRaiseFailFastException with
    | some handsBack =>
      rw [runtime_preferred_run env handsBack hp]
      cases handsBack
      · exact ⟨_, _, rfl, Or.inr ⟨rfl, Or.inl rfl⟩⟩
      · exact ⟨_, _, rfl, Or.inl ⟨_, rfl, by simp⟩⟩
    | none =>
      rw [runtime_fallback_run env hp]
      by_cases hr : env.raiseOutcome = .noReturn
      · rw [if_pos hr]
        exact ⟨_, _, rfl, Or.inr ⟨rfl, Or.inr ⟨rfl, hr⟩⟩⟩
      · rw [if_neg hr]
        exact ⟨_, _, rfl, Or.inl ⟨_, rfl, by simp [logCall]⟩⟩
  have hrun : raise_fail_fast env pExceptionRecord pContextRecord w =
      RaiseFailFastException_Runtime env pExceptionRecord pContextRecord
        (raise_fail_fast_flags pExceptionRecord) w := by
    obtain ⟨h, w1, hw, _⟩ := key (raise_fail_fast_flags pExceptionRecord)
    simp only [raise_fail_fast, M.bind_run, hw]
  refine ⟨?_, key dwFlags, hrun, ?_⟩
  · intro a w1 hret
    obtain ⟨h, w2, hw, _⟩ := key dwFlags
    rw [hw] at hret
    exact Outcome.noConfusion hret
  · intro a w1 hret
    obtain ⟨h, w2, hw, _⟩ := key (raise_fail_fast_flags pExceptionRecord)
    rw [hrun, hw] at hret
    exact Outcome.noConfusion hret

/-- C2: on the fallback path (no fail-fast entry point) the general raise is
attempted with the fault's code (the supplied code when it is not zero, the
sentinel `0xC0000409` when it is zero or no record was supplied) and is the
last call before the kill; whenever control comes back from it, whether the
guard caught the exception or a handler resumed, the process is force-killed
with that same code as exit status. Only if the raise keeps control does the
run stop there. -/
theorem fallback_exit_status (env : Env) (hcap : env.pRaiseFailFastException = none)
    (pExceptionRecord : Option EXCEPTION_RECORD) (pContextRecord : Option CONTEXT)
    (dwFlags : Nat) (w : World) :
    ∃ (w0 : World) (pre : List OsCall) (fl n : Nat) (args : Option (List (Option Nat))),
      (∀ c ∈ pre, ∃ m, c = OsCall.SetErrorMode m) ∧
      w0.calls = w.calls ++ pre ++
        [OsCall.RaiseException (faultExitStatus pExceptionRecord) fl n args] ∧
      RaiseFailFastException_Runtime env pExceptionRecord pContextRecord dwFlags w =
        match env.raiseOutcome with
        | .caught => .halted (.terminated (faultExitStatus pExceptionRecord))
            { w0 with calls := w0.calls ++
                [OsCall.TerminateProcess (faultExitStatus pExceptionRecord)] }
        | .resumed => .halted (.terminated (faultExitStatus pExceptionRecord))
            { w0 with calls := w0.calls ++
                [OsCall.TerminateProcess (faultExitStatus pExceptionRecord)] }
        | .noReturn => .halted .noReturn w0 := by
  refine ⟨afterRaise env pExceptionRecord dwFlags w,
    if dwFlags &&& FAIL_FAST_NO_HARD_ERROR_DLG ≠ 0 then
      [OsCall.SetErrorMode (w.errorMode ||| env.sdk.SEM_NOGPFAULTERRORBOX)] else [],
    (synthesizeRecord env pExceptionRecord dwFlags).ExceptionFlags,
    copiedCount env.sdk (synthesizeRecord env pExceptionRecord dwFlags),
    if copiedCount env.sdk (synthesizeRecord env pExceptionRecord dwFlags) ≠ 0 then
      some (copiedArray env.sdk (synthesizeRecord env pExceptionRecord dwFlags)) else none,
    ?_, ?_, ?_⟩
  · intro c hc
    split_ifs at hc
    · exact ⟨_, List.mem_singleton.mp hc⟩
    · exact absurd hc (List.not_mem_nil c)
  · simp only [afterRaise, afterErrorMode, raiseCall, synthesizeRecord_code]
    split_ifs <;> simp [logCall]
  · rw [runtime_fallback_run env hcap, synthesizeRecord_code]
    cases hr : env.raiseOutcome <;> simp [logCall]

theorem fallback_exit_status_witness :
    envVista.pRaiseFailFastException = none ∧
    (RaiseFailFastException_Runtime envVista (some recZeroCode) (some ctxSample) 3
      worldStart).world.calls.getLast? = some (OsCall.TerminateProcess 0xC0000409) ∧
    OsCall.RaiseException 0xC0000409 5 1
        (some [some 9, none, none, none, none, none, none, none, none, none, none, none, none,
          none, none]) ∈
      (RaiseFailFastException_Runtime envVista (some recZeroCode) (some ctxSample) 3
        worldStart).world.calls :=
  ⟨rfl, by
    obtain ⟨w0, pre, fl, n, args, _, _, hrun⟩ :=
      fallback_exit_status envVista rfl (some recZeroCode) (some ctxSample) 3 worldStart
    rw [hrun]
    simp [envVista, Outcome.world, faultExitStatus, recZeroCode],
    by decide⟩

/-! ## The preferred path -/

/-- C3: when the fail-fast entry point is present the shim calls it exactly
once, with the caller's record, context and flags as they were given, makes no
other call before it, changes neither the error mode nor any parameter array,
raises nothing itself, and, if the call comes back, force-kills the process
with exit status `(UINT)-1 = 0xFFFFFFFF` as the very next call. -/
theorem preferred_path_passes_through (env : Env) (handsBack : Bool)
    (hcap : env.pRaiseFailFastException = some handsBack)
    (pExceptionRecord : Option EXCEPTION_RECORD) (pContextRecord : Option CONTEXT)
    (dwFlags : Nat) (w : World) :
    UINT_MINUS_ONE = 0xFFFFFFFF ∧
    RaiseFailFastException_Runtime env pExceptionRecord pContextRecord dwFlags w =
      (if handsBack = true then
        .halted (.terminated 0xFFFFFFFF)
          { errorMode := w.errorMode,
            calls := w.calls ++
              [OsCall.RaiseFailFastException pExceptionRecord pContextRecord dwFlags,
               OsCall.TerminateProcess 0xFFFFFFFF],
            accesses := w.accesses }
      else
        .halted .noReturn
          { errorMode := w.errorMode,
            calls := w.calls ++
              [OsCall.RaiseFailFastException pExceptionRecord pContextRecord dwFlags],
            accesses := w.accesses }) := by
  have hu : UINT_MINUS_ONE = 0xFFFFFFFF := by decide
  refine ⟨hu, ?_⟩
  rw [runtime_preferred_run env handsBack hcap, hu]

theorem preferred_path_passes_through_witness :
    envModern.pRaiseFailFastException = some true ∧
    RaiseFailFastException_Runtime envModern (some recZeroCode) (some ctxSample) 3 worldStart =
      .halted (.terminated 0xFFFFFFFF)
        { errorMode := 1,
          calls := [OsCall.RaiseFailFastException (some recZeroCode) (some ctxSample) 3,
                    OsCall.TerminateProcess 0xFFFFFFFF],
          accesses := [] } :=
  ⟨rfl, (preferred_path_passes_through envModern true rfl (some recZeroCode) (some ctxSample) 3
    worldStart).2⟩

/-! ## The synthesized record -/

/-- C4: on the fallback path, for every supplied record the flags of the
synthesized record are the original flags with the non-continuable bits OR-ed
in, so every bit is set exactly when it was set before or belongs to the
non-continuable constant, and a non-zero code is kept. When the supplied code
is zero the synthesized code is the sentinel `0xC0000409`. The exception
raised from the record carries that code and those flags. -/
theorem synthesized_code_and_flags (env : Env) (hcap : env.pRaiseFailFastException = none)
    (rec : EXCEPTION_RECORD) (pContextRecord : Option CONTEXT) (dwFlags : Nat) (w : World) :
    (synthesizeRecord env (some rec) dwFlags).ExceptionFlags =
      rec.ExceptionFlags ||| env.sdk.EXCEPTION_NONCONTINUABLE ∧
    (synthesizeRecord env (some rec) dwFlags).ExceptionFlags &&&
      env.sdk.EXCEPTION_NONCONTINUABLE = env.sdk.EXCEPTION_NONCONTINUABLE ∧
    (∀ i : Nat, (synthesizeRecord env (some rec) dwFlags).ExceptionFlags.testBit i =
      (rec.ExceptionFlags.testBit i || env.sdk.EXCEPTION_NONCONTINUABLE.testBit i)) ∧
    (rec.ExceptionCode ≠ 0 →
      (synthesizeRecord env (some rec) dwFlags).ExceptionCode = rec.ExceptionCode) ∧
    (rec.ExceptionCode = 0 →
      (synthesizeRecord env (some rec) dwFlags).ExceptionCode = 0xC0000409) ∧
    (∃ (n : Nat) (args : Option (List (Option Nat))),
      OsCall.RaiseException (synthesizeRecord env (some rec) dwFlags).ExceptionCode
        (rec.ExceptionFlags ||| env.sdk.EXCEPTION_NONCONTINUABLE) n args ∈
      ((RaiseFailFastException_Runtime env (some rec) pContextRecord dwFlags w).world.calls.drop
        w.calls.length)) := by
  have hfl := synthesizeRecord_some_flags env rec dwFlags
  have hcode := synthesizeRecord_some_code env rec dwFlags
  refine ⟨hfl, ?_, ?_, ?_, ?_, ?_⟩
  · rw [hfl]
    apply Nat.eq_of_testBit_eq
    intro i
    simp only [Nat.testBit_and, Nat.testBit_or]
    cases rec.ExceptionFlags.testBit i <;> cases env.sdk.EXCEPTION_NONCONTINUABLE.testBit i <;> rfl
  · intro i
    rw [hfl, Nat.testBit_or]
  · intro h
    rw [hcode, if_neg h]
  · intro h
    rw [hcode, if_pos h]
    rfl
  · refine ⟨copiedCount env.sdk (synthesizeRecord env (some rec) dwFlags),
      if copiedCount env.sdk (synthesizeRecord env (some rec) dwFlags) ≠ 0 then
        some (copiedArray env.sdk (synthesizeRecord env (some rec) dwFlags)) else none, ?_⟩
    rw [runtime_fallback_run env hcap, ← hfl]
    simp only [afterRaise, afterErrorMode, raiseCall]
    split_ifs <;> simp [Outcome.world, logCall]

theorem synthesized_code_and_flags_witness :
    envVista.pRaiseFailFastException = none ∧ recZeroCode.ExceptionCode = 0 ∧
    (synthesizeRecord envVista (some recZeroCode) 3).ExceptionCode = 0xC0000409 ∧
    (synthesizeRecord envVista (some recZeroCode) 3).ExceptionFlags = 5 :=
  ⟨rfl, rfl,
    (synthesized_code_and_flags envVista rfl recZeroCode (some ctxSample) 3 worldStart).2.2.2.2.1
      rfl,
    (synthesized_code_and_flags envVista rfl recZeroCode (some ctxSample) 3 worldStart).1⟩

/-! ## The parameter copy -/

theorem copiedCount_synthesized (env : Env) (rec : EXCEPTION_RECORD) (dwFlags : Nat) :
    copiedCount env.sdk (synthesizeRecord env (some rec) dwFlags) = copiedCount env.sdk rec := by
  simp only [copiedCount, synthesizeRecord_some_numberParameters]

theorem copiedArray_synthesized (env : Env) (rec : EXCEPTION_RECORD) (dwFlags : Nat) :
    copiedArray env.sdk (synthesizeRecord env (some rec) dwFlags) = copiedArray env.sdk rec := by
  simp only [copiedArray, copiedCount_synthesized]
  generalize List.range (copiedCount env.sdk rec) = l
  generalize List.replicate env.sdk.EXCEPTION_MAXIMUM_PARAMETERS (none : Option Nat) = ps
  induction l generalizing ps with
  | nil => rfl
  | cons i l ih =>
    simp only [copiedInto, List.foldl_cons, synthesizeRecord_some_information] at ih ⊢

/-- C5: on the fallback path, a supplied record that declares more parameters
than `EXCEPTION_MAXIMUM_PARAMETERS` has copied count 0: no array slot is read
or written and the exception is raised with zero arguments and a null
argument pointer. A record that declares `n` parameters, `n` at most the
maximum, has its first `n` parameters copied in order and unchanged into the
first `n` slots of `params` (the remaining slots stay uninitialised), the
accesses are exactly a read and a write of each index below `n` in ascending
order, every index touched is below the maximum, and the exception is raised
with `n` arguments. -/
theorem parameter_copy_bounded (env : Env) (hcap : env.pRaiseFailFastException = none)
    (rec : EXCEPTION_RECORD) (pContextRecord : Option CONTEXT) (dwFlags : Nat) (w : World) :
    (env.sdk.EXCEPTION_MAXIMUM_PARAMETERS < rec.NumberParameters →
      (∃ ps, copyParams env.sdk (synthesizeRecord env (some rec) dwFlags) w = .returned (0, ps) w) ∧
      (RaiseFailFastException_Runtime env (some rec) pContextRecord dwFlags w).world.accesses =
        w.accesses ∧
      (∃ code fl, OsCall.RaiseException code fl 0 none ∈
        (RaiseFailFastException_Runtime env (some rec) pContextRecord dwFlags w).world.calls.drop
          w.calls.length)) ∧
    (rec.NumberParameters ≤ env.sdk.EXCEPTION_MAXIMUM_PARAMETERS →
      (∃ ps w1,
        copyParams env.sdk (synthesizeRecord env (some rec) dwFlags) w =
          .returned (rec.NumberParameters, ps) w1 ∧
        ps = (List.range rec.NumberParameters).map (fun i => some (rec.information i)) ++
          List.replicate (env.sdk.EXCEPTION_MAXIMUM_PARAMETERS - rec.NumberParameters) none ∧
        (rec.ExceptionInformation.length = env.sdk.EXCEPTION_MAXIMUM_PARAMETERS →
          ps.take rec.NumberParameters =
            (rec.ExceptionInformation.take rec.NumberParameters).map some) ∧
        (∃ code fl, OsCall.RaiseException code fl rec.NumberParameters
            (if rec.NumberParameters ≠ 0 then some ps else none) ∈
          (RaiseFailFastException_Runtime env (some rec) pContextRecord dwFlags w).world.calls.drop
            w.calls.length)) ∧
      (RaiseFailFastException_Runtime env (some rec) pContextRecord dwFlags w).world.accesses =
        w.accesses ++ (List.range rec.NumberParameters).flatMap
          (fun i => [Access.readInformation i, Access.writeParams i]) ∧
      (∀ a ∈ (RaiseFailFastException_Runtime env (some rec) pContextRecord
          dwFlags w).world.accesses.drop w.accesses.length,
        a.index < env.sdk.EXCEPTION_MAXIMUM_PARAMETERS)) := by
  have hworld : (RaiseFailFastException_Runtime env (some rec) pContextRecord dwFlags w).world =
      logCall (.TerminateProcess (synthesizeRecord env (some rec) dwFlags).ExceptionCode)
        (afterRaise env (some rec) dwFlags w) ∨
      (RaiseFailFastException_Runtime env (some rec) pContextRecord dwFlags w).world =
        afterRaise env (some rec) dwFlags w := by
    rw [runtime_fallback_run env hcap]
    split_ifs
    · exact Or.inr rfl
    · exact Or.inl rfl
  have hacc : (RaiseFailFastException_Runtime env (some rec) pContextRecord dwFlags w).world.accesses
      = w.accesses ++ loopAccesses (List.range (copiedCount env.sdk rec)) := by
    rcases hworld with h | h <;> rw [h] <;>
      simp only [afterRaise, afterErrorMode, logCall, copiedCount_synthesized] <;>
      split_ifs <;> rfl
  have hcall : OsCall.RaiseException (synthesizeRecord env (some rec) dwFlags).ExceptionCode
      (synthesizeRecord env (some rec) dwFlags).ExceptionFlags (copiedCount env.sdk rec)
      (if copiedCount env.sdk rec ≠ 0 then some (copiedArray env.sdk rec) else none) ∈
      (RaiseFailFastException_Runtime env (some rec) pContextRecord dwFlags w).world.calls.drop
        w.calls.length := by
    rcases hworld with h | h <;> rw [h] <;>
      simp only [afterRaise, afterErrorMode, logCall, raiseCall, copiedCount_synthesized,
        copiedArray_synthesized] <;>
      split_ifs <;> simp
  have hrun := copyParams_run env.sdk (synthesizeRecord env (some rec) dwFlags) w
  rw [copiedCount_synthesized, copiedArray_synthesized] at hrun
  constructor
  · intro hgt
    have hc : copiedCount env.sdk rec = 0 := by
      simp [copiedCount, Nat.not_le.mpr hgt]
    rw [hc] at hcall hrun hacc
    refine ⟨⟨copiedArray env.sdk rec, ?_⟩, ?_, ⟨_, _, by simpa using hcall⟩⟩
    · rw [hrun]
      simp [loopAccesses]
    · rw [hacc]
      simp [loopAccesses]
  · intro hle
    have hc : copiedCount env.sdk rec = rec.NumberParameters := by
      simp [copiedCount, hle]
    have harr : copiedArray env.sdk rec =
        (List.range rec.NumberParameters).map (fun i => some (rec.information i)) ++
          List.replicate (env.sdk.EXCEPTION_MAXIMUM_PARAMETERS - rec.NumberParameters) none := by
      rw [copiedArray, hc]
      exact copiedInto_range rec _ _ hle
    rw [hc] at hcall hrun hacc
    refine ⟨⟨_, _, hrun, harr, ?_, ⟨_, _, hcall⟩⟩, hacc, ?_⟩
    · intro hlen
      rw [harr, List.take_append_of_le_length (by simp), List.take_of_length_le (by simp)]
      exact map_information_range rec _ (hlen ▸ hle)
    · intro a ha
      rw [hacc, List.drop_left] at ha
      exact Nat.lt_of_lt_of_le (loopAccesses_index_lt _ a ha) hle

theorem parameter_copy_bounded_witness :
    envVista.pRaiseFailFastException = none ∧
    envVista.sdk.EXCEPTION_MAXIMUM_PARAMETERS < recTooMany.NumberParameters ∧
    (RaiseFailFastException_Runtime envVista (some recTooMany) none 0 worldStart).world.accesses =
      worldStart.accesses ∧
    recAccessViolation.NumberParameters ≤ envVista.sdk.EXCEPTION_MAXIMUM_PARAMETERS ∧
    (RaiseFailFastException_Runtime envVista (some recAccessViolation) none 0
        worldStart).world.accesses =
      worldStart.accesses ++ (List.range recAccessViolation.NumberParameters).flatMap
        (fun i => [Access.readInformation i, Access.writeParams i]) :=
  ⟨rfl, by decide,
    ((parameter_copy_bounded envVista rfl recTooMany none 0 worldStart).1 (by decide)).2.1,
    by decide,
    ((parameter_copy_bounded envVista rfl recAccessViolation none 0 worldStart).2 (by decide)).2.1⟩

/-! ## The synthesized address -/

/-- What lines 83-89 and 94-98 do to the address, case by case: a supplied
record with a null address gets the call site's return address (Microsoft
compiler) or the routine's own address (other toolchains) when the flag is
set, and keeps its address otherwise; an absent record gets the return address
only under the Microsoft compiler, and a null address in every other case. -/
theorem synthesizeRecord_address (env : Env) (dwFlags : Nat) :
    (∀ rec : EXCEPTION_RECORD, rec.ExceptionAddress = 0 →
      dwFlags &&& FAIL_FAST_GENERATE_EXCEPTION_ADDRESS ≠ 0 →
      (synthesizeRecord env (some rec) dwFlags).ExceptionAddress =
        if env.sdk.MSC_VER = true then env.returnAddress else env.routineAddress) ∧
    (∀ rec : EXCEPTION_RECORD,
      rec.ExceptionAddress ≠ 0 ∨ dwFlags &&& FAIL_FAST_GENERATE_EXCEPTION_ADDRESS = 0 →
      (synthesizeRecord env (some rec) dwFlags).ExceptionAddress = rec.ExceptionAddress) ∧
    (synthesizeRecord env none dwFlags).ExceptionAddress =
      if env.sdk.MSC_VER = true ∧ dwFlags &&& FAIL_FAST_GENERATE_EXCEPTION_ADDRESS ≠ 0
      then env.returnAddress else 0 := by
  refine ⟨?_, ?_, ?_⟩
  · intro rec h0 hf
    unfold synthesizeRecord
    simp only []
    split_ifs <;> simp_all
  · intro rec h
    unfold synthesizeRecord
    simp only []
    split_ifs <;> simp_all
  · unfold synthesizeRecord
    simp only []
    split_ifs <;> simp_all [zeroRecord]

/-- C6: with no fail-fast entry point, no record supplied, the
synthesize-address flag set and a toolchain other than the Microsoft
compiler, the synthesized record keeps a null address: neither the return
address nor the routine's own address is stored, although both are non-null
and although the branch for a supplied record stores the routine's address
under the same toolchain and flag. The rest of the run is as the design
document says: code and exit status are the sentinel. -/
theorem absent_record_address_left_null_without_msc :
    envVistaPortable.pRaiseFailFastException = none ∧
    envVistaPortable.sdk.MSC_VER = false ∧
    FAIL_FAST_GENERATE_EXCEPTION_ADDRESS &&& FAIL_FAST_GENERATE_EXCEPTION_ADDRESS ≠ 0 ∧
    envVistaPortable.returnAddress ≠ 0 ∧
    envVistaPortable.routineAddress ≠ 0 ∧
    (synthesizeRecord envVistaPortable none
      FAIL_FAST_GENERATE_EXCEPTION_ADDRESS).ExceptionAddress = 0 ∧
    (synthesizeRecord envVistaPortable (some recZeroCode)
      FAIL_FAST_GENERATE_EXCEPTION_ADDRESS).ExceptionAddress =
        envVistaPortable.routineAddress ∧
    RaiseFailFastException_Runtime envVistaPortable none none
      FAIL_FAST_GENERATE_EXCEPTION_ADDRESS worldStart =
        .halted (.terminated 0xC0000409)
          { errorMode := 1,
            calls := [OsCall.RaiseException 0xC0000409 1 0 none,
                      OsCall.TerminateProcess 0xC0000409],
            accesses := [] } := by
  decide

/-! ## The error mode -/

/-- C7: with no fail-fast entry point and the suppress-dialog flag set, the
first call of the shim is `SetErrorMode` with the previous error mode OR-ed
with `SEM_NOGPFAULTERRORBOX`, the raise comes right after it, and the error
mode at the end is that value: the suppression bits are set and every bit set
before is still set. With the flag clear, the error mode is left as it was and
`SetErrorMode` is not called, whatever the OS offers. -/
theorem error_mode_suppression (env : Env) (pExceptionRecord : Option EXCEPTION_RECORD)
    (pContextRecord : Option CONTEXT) (dwFlags : Nat) (w : World) :
    (env.pRaiseFailFastException = none → dwFlags &&& FAIL_FAST_NO_HARD_ERROR_DLG ≠ 0 →
      (RaiseFailFastException_Runtime env pExceptionRecord pContextRecord dwFlags w).world.errorMode
        = w.errorMode ||| env.sdk.SEM_NOGPFAULTERRORBOX ∧
      (RaiseFailFastException_Runtime env pExceptionRecord pContextRecord dwFlags w).world.errorMode
        &&& env.sdk.SEM_NOGPFAULTERRORBOX = env.sdk.SEM_NOGPFAULTERRORBOX ∧
      (∀ i : Nat, w.errorMode.testBit i = true →
        (RaiseFailFastException_Runtime env pExceptionRecord pContextRecord
          dwFlags w).world.errorMode.testBit i = true) ∧
      (∃ (code fl n : Nat) (args : Option (List (Option Nat))) (rest : List OsCall),
        (RaiseFailFastException_Runtime env pExceptionRecord pContextRecord dwFlags w).world.calls
          = w.calls ++ [OsCall.SetErrorMode (w.errorMode ||| env.sdk.SEM_NOGPFAULTERRORBOX),
              OsCall.RaiseException code fl n args] ++ rest)) ∧
    (dwFlags &&& FAIL_FAST_NO_HARD_ERROR_DLG = 0 →
      (RaiseFailFastException_Runtime env pExceptionRecord pContextRecord dwFlags w).world.errorMode
        = w.errorMode ∧
      ∀ m : Nat, OsCall.SetErrorMode m ∉
        (RaiseFailFastException_Runtime env pExceptionRecord pContextRecord
          dwFlags w).world.calls.drop w.calls.length) := by
  constructor
  · intro hcap hf
    have hmode : (RaiseFailFastException_Runtime env pExceptionRecord pContextRecord
        dwFlags w).world.errorMode = w.errorMode ||| env.sdk.SEM_NOGPFAULTERRORBOX := by
      rw [runtime_fallback_run env hcap]
      split_ifs <;> simp [Outcome.world, afterRaise, afterErrorMode, logCall, hf]
    refine ⟨hmode, ?_, ?_, ?_⟩
    · rw [hmode]
      apply Nat.eq_of_testBit_eq
      intro i
      simp only [Nat.testBit_and, Nat.testBit_or]
      cases w.errorMode.testBit i <;> cases env.sdk.SEM_NOGPFAULTERRORBOX.testBit i <;> rfl
    · intro i hi
      rw [hmode, Nat.testBit_or, hi]
      rfl
    · rw [runtime_fallback_run env hcap]
      refine ⟨(synthesizeRecord env pExceptionRecord dwFlags).ExceptionCode,
        (synthesizeRecord env pExceptionRecord dwFlags).ExceptionFlags,
        copiedCount env.sdk (synthesizeRecord env pExceptionRecord dwFlags),
        if copiedCount env.sdk (synthesizeRecord env pExceptionRecord dwFlags) ≠ 0 then
          some (copiedArray env.sdk (synthesizeRecord env pExceptionRecord dwFlags)) else none,
        if env.raiseOutcome = .noReturn then [] else
          [OsCall.TerminateProcess (synthesizeRecord env pExceptionRecord dwFlags).ExceptionCode],
        ?_⟩
      by_cases hr : env.raiseOutcome = .noReturn <;>
        simp [hr, Outcome.world, afterRaise, afterErrorMode, logCall, raiseCall, hf]
  · intro hf
    cases hp : env.pRaiseFailFastException with
    | some handsBack =>
      rw [runtime_preferred_run env handsBack hp]
      cases handsBack <;> simp [Outcome.world]
    | none =>
      rw [runtime_fallback_run env hp]
      split_ifs <;> simp [Outcome.world, afterRaise, afterErrorMode, logCall, raiseCall, hf]

theorem error_mode_suppression_witness :
    envVista.pRaiseFailFastException = none ∧ 3 &&& FAIL_FAST_NO_HARD_ERROR_DLG ≠ 0 ∧
    (RaiseFailFastException_Runtime envVista (some recZeroCode) none 3
      { errorMode := 0x8001, calls := [], accesses := [] }).world.errorMode = 0x8003 ∧
    1 &&& FAIL_FAST_NO_HARD_ERROR_DLG = 0 ∧
    (RaiseFailFastException_Runtime envVista (some recZeroCode) none 1
      { errorMode := 0x8001, calls := [], accesses := [] }).world.errorMode = 0x8001 :=
  ⟨rfl, by decide,
    ((error_mode_suppression envVista (some recZeroCode) none 3
      { errorMode := 0x8001, calls := [], accesses := [] }).1 rfl (by decide)).1,
    by decide,
    ((error_mode_suppression envVista (some recZeroCode) none 1
      { errorMode := 0x8001, calls := [], accesses := [] }).2 (by decide)).1⟩

/-! ## The helpers next to the shim -/

/-- C8: `was_assert_poison_crash` is a function of its arguments alone. It
answers true only for a non-null record whose code is access-violation, whose
parameter count is at least 2 and whose second parameter is the poison
address; it answers false for a null record, for any other code, for a count
below 2 and for any other address. When `CAN_SHOW_REGISTERS_ON_ASSERT` is
compiled in it answers true whenever those conditions hold. -/
theorem was_assert_poison_crash_exact (sdk : WinSdk) (g_assert_poison_read_only : Nat) :
    (∀ siginfo : Option EXCEPTION_RECORD,
      was_assert_poison_crash sdk g_assert_poison_read_only siginfo = true →
      ∃ er, siginfo = some er ∧ er.ExceptionCode = sdk.EXCEPTION_ACCESS_VIOLATION ∧
        2 ≤ er.NumberParameters ∧ er.information 1 = g_assert_poison_read_only) ∧
    was_assert_poison_crash sdk g_assert_poison_read_only none = false ∧
    (∀ er : EXCEPTION_RECORD, er.ExceptionCode ≠ sdk.EXCEPTION_ACCESS_VIOLATION →
      was_assert_poison_crash sdk g_assert_poison_read_only (some er) = false) ∧
    (∀ er : EXCEPTION_RECORD, er.NumberParameters < 2 →
      was_assert_poison_crash sdk g_assert_poison_read_only (some er) = false) ∧
    (∀ er : EXCEPTION_RECORD, er.information 1 ≠ g_assert_poison_read_only →
      was_assert_poison_crash sdk g_assert_poison_read_only (some er) = false) ∧
    (sdk.CAN_SHOW_REGISTERS_ON_ASSERT = true →
      ∀ er : EXCEPTION_RECORD, er.ExceptionCode = sdk.EXCEPTION_ACCESS_VIOLATION →
        2 ≤ er.NumberParameters → er.information 1 = g_assert_poison_read_only →
        was_assert_poison_crash sdk g_assert_poison_read_only (some er) = true) := by
  refine ⟨?_, ?_, ?_, ?_, ?_, ?_⟩
  · intro siginfo h
    cases siginfo with
    | none => simp [was_assert_poison_crash] at h
    | some er =>
      simp only [was_assert_poison_crash] at h
      split_ifs at h with h1 h2
      exact ⟨er, rfl, h2.1, h2.2, of_decide_eq_true h⟩
  · simp [was_assert_poison_crash]
  · intro er h
    simp [was_assert_poison_crash, h]
  · intro er h
    simp [was_assert_poison_crash, Nat.not_le.mpr h]
  · intro er h
    simp [was_assert_poison_crash, h]
  · intro hb er h1 h2 h3
    simp [was_assert_poison_crash, hb, h1, h2, h3]

theorem was_assert_poison_crash_exact_witness :
    was_assert_poison_crash winnt 0x10 (some recAccessViolation) = true ∧
    was_assert_poison_crash winnt 0x10 (some recZeroCode) = false ∧
    was_assert_poison_crash winnt 0x20 (some recAccessViolation) = false :=
  ⟨(was_assert_poison_crash_exact winnt 0x10).2.2.2.2.2 rfl recAccessViolation rfl (by decide) rfl,
    (was_assert_poison_crash_exact winnt 0x10).2.2.1 recZeroCode (by decide),
    (was_assert_poison_crash_exact winnt 0x20).2.2.2.2.1 recAccessViolation (by decide)⟩

/-- C9: `check_failing_cds_access` changes the stream if and only if the
record is non-null, the archive is compiled in and in use, the code is
in-page-error, the parameter count is at least 2, the second parameter is
non-zero and the archive reports that it lies inside the shared region. In
that case it appends the one fixed hint; in every other case the stream is
returned as it was. -/
theorem check_failing_cds_access_exact (sdk : WinSdk) (is_using_archive : Bool)
    (is_in_shared_metaspace : Nat → Bool) (st : List String)
    (siginfo : Option EXCEPTION_RECORD) :
    (cdsHintDue sdk is_using_archive is_in_shared_metaspace siginfo →
      check_failing_cds_access sdk is_using_archive is_in_shared_metaspace st siginfo =
        st ++ [cdsHint]) ∧
    (¬ cdsHintDue sdk is_using_archive is_in_shared_metaspace siginfo →
      check_failing_cds_access sdk is_using_archive is_in_shared_metaspace st siginfo = st) ∧
    (check_failing_cds_access sdk is_using_archive is_in_shared_metaspace st siginfo ≠ st ↔
      cdsHintDue sdk is_using_archive is_in_shared_metaspace siginfo) ∧
    cdsHint ≠ "" := by
  have hyes : cdsHintDue sdk is_using_archive is_in_shared_metaspace siginfo →
      check_failing_cds_access sdk is_using_archive is_in_shared_metaspace st siginfo =
        st ++ [cdsHint] := by
    rintro ⟨er, rfl, h1, h2, h3, h4, h5, h6⟩
    simp [check_failing_cds_access, h1, h2, h3, h4, h5, h6]
  have hno : ¬ cdsHintDue sdk is_using_archive is_in_shared_metaspace siginfo →
      check_failing_cds_access sdk is_using_archive is_in_shared_metaspace st siginfo = st := by
    intro hn
    cases siginfo with
    | none => simp [check_failing_cds_access]
    | some er =>
      simp only [check_failing_cds_access]
      split_ifs with h1 h2 h3 h4 h5
      · exact absurd ⟨er, rfl, h1, h2, h3.1, h3.2, h4, h5⟩ hn
      all_goals rfl
  refine ⟨hyes, hno, ?_, by decide⟩
  constructor
  · intro hne
    by_contra hn
    exact hne (hno hn)
  · intro hd
    rw [hyes hd]
    simp

theorem check_failing_cds_access_exact_witness :
    cdsHintDue winnt true (fun a => a == 0x10) (some recInPageError) ∧
    check_failing_cds_access winnt true (fun a => a == 0x10) ["# "] (some recInPageError) =
      ["# "] ++ [cdsHint] ∧
    ¬ cdsHintDue winnt true (fun a => a == 0x10) (some recAccessViolation) ∧
    check_failing_cds_access winnt true (fun a => a == 0x10) ["# "] (some recAccessViolation) =
      ["# "] :=
  have hdue : cdsHintDue winnt true (fun a => a == 0x10) (some recInPageError) :=
    ⟨recInPageError, rfl, rfl, rfl, rfl, by decide, by decide, rfl⟩
  have hnot : ¬ cdsHintDue winnt true (fun a => a == 0x10) (some recAccessViolation) := by
    rintro ⟨er, her, _, _, hcode, _⟩
    cases her
    exact absurd hcode (by decide)
  ⟨hdue,
    (check_failing_cds_access_exact winnt true (fun a => a == 0x10) ["# "]
      (some recInPageError)).1 hdue,
    hnot,
    (check_failing_cds_access_exact winnt true (fun a => a == 0x10) ["# "]
      (some recAccessViolation)).2.1 hnot⟩

/-! ## The public entry point -/

theorem runtime_halts (env : Env) (pExceptionRecord : Option EXCEPTION_RECORD)
    (pContextRecord : Option CONTEXT) (dwFlags : Nat) (w : World) :
    ∃ (h : Halt) (w1 : World),
      RaiseFailFastException_Runtime env pExceptionRecord pContextRecord dwFlags w =
        .halted h w1 := by
  cases hp : env.pRaiseFailFastException with
  | some handsBack =>
    rw [runtime_preferred_run env handsBack hp]
    cases handsBack
    · exact ⟨_, _, rfl⟩
    · exact ⟨_, _, rfl⟩
  | none =>
    rw [runtime_fallback_run env hp]
    by_cases hr : env.raiseOutcome = .noReturn
    · rw [if_pos hr]; exact ⟨_, _, rfl⟩
    · rw [if_neg hr]; exact ⟨_, _, rfl⟩

theorem raise_fail_fast_run (env : Env) (exrecord : Option EXCEPTION_RECORD)
    (context : Option CONTEXT) (w : World) :
    raise_fail_fast env exrecord context w =
      RaiseFailFastException_Runtime env exrecord context (raise_fail_fast_flags exrecord) w := by
  obtain ⟨h, w1, hw⟩ := runtime_halts env exrecord context (raise_fail_fast_flags exrecord) w
  simp only [raise_fail_fast, M.bind_run, hw]

theorem runtime_errorMode_kept (env : Env) (pExceptionRecord : Option EXCEPTION_RECORD)
    (pContextRecord : Option CONTEXT) (dwFlags : Nat) (w : World)
    (hf : dwFlags &&& FAIL_FAST_NO_HARD_ERROR_DLG = 0) :
    (RaiseFailFastException_Runtime env pExceptionRecord pContextRecord dwFlags w).world.errorMode
      = w.errorMode ∧
    ∀ m : Nat, OsCall.SetErrorMode m ∉
      (RaiseFailFastException_Runtime env pExceptionRecord pContextRecord
        dwFlags w).world.calls.drop w.calls.length := by
  cases hp : env.pRaiseFailFastException with
  | some handsBack =>
    rw [runtime_preferred_run env handsBack hp]
    cases handsBack <;> simp [Outcome.world]
  | none =>
    rw [runtime_fallback_run env hp]
    split_ifs <;> simp [Outcome.world, afterRaise, afterErrorMode, logCall, raiseCall, hf]

/-- C10: `VMError::raise_fail_fast` hands the shim the flags `0x0001`
(synthesize address) when the record is null and `0` when it is not, and its
run is the run of the shim with those flags. The suppress-dialog bit `0x0002`
is therefore never set: the error mode at the end is the one at the start and
`SetErrorMode` is never called. A supplied record with a null address keeps
its null address in the synthesized record. -/
theorem raise_fail_fast_flags_exact (env : Env) (exrecord : Option EXCEPTION_RECORD)
    (context : Option CONTEXT) (w : World) :
    raise_fail_fast env exrecord context w =
      RaiseFailFastException_Runtime env exrecord context
        (if exrecord = none then 0x0001 else 0) w ∧
    raise_fail_fast_flags exrecord = (if exrecord = none then 0x0001 else 0) ∧
    raise_fail_fast_flags exrecord &&& 0x0002 = 0 ∧
    (raise_fail_fast env exrecord context w).world.errorMode = w.errorMode ∧
    (∀ m : Nat, OsCall.SetErrorMode m ∉
      (raise_fail_fast env exrecord context w).world.calls.drop w.calls.length) ∧
    (∀ rec : EXCEPTION_RECORD, exrecord = some rec → rec.ExceptionAddress = 0 →
      (synthesizeRecord env exrecord (raise_fail_fast_flags exrecord)).ExceptionAddress = 0) := by
  have hflags : raise_fail_fast_flags exrecord = (if exrecord = none then 0x0001 else 0) := rfl
  have hbit : raise_fail_fast_flags exrecord &&& FAIL_FAST_NO_HARD_ERROR_DLG = 0 := by
    unfold raise_fail_fast_flags
    split_ifs <;> decide
  have hkept := runtime_errorMode_kept env exrecord context (raise_fail_fast_flags exrecord) w hbit
  rw [← raise_fail_fast_run] at hkept
  refine ⟨hflags ▸ raise_fail_fast_run env exrecord context w, hflags, hbit, hkept.1, hkept.2, ?_⟩
  intro rec hrec haddr
  subst hrec
  rw [((synthesizeRecord_address env (raise_fail_fast_flags (some rec))).2.1 rec
    (Or.inr (by simp [raise_fail_fast_flags]))), haddr]

theorem raise_fail_fast_flags_exact_witness :
    recZeroCode.ExceptionAddress = 0 ∧
    (synthesizeRecord envVista (some recZeroCode)
      (raise_fail_fast_flags (some recZeroCode))).ExceptionAddress = 0 :=
  ⟨rfl, (raise_fail_fast_flags_exact envVista (some recZeroCode) none worldStart).2.2.2.2.2
    recZeroCode rfl rfl⟩

/-- The end-to-end run of the design document: the record with the sentinel
code, no flags, no address and no parameters, no fail-fast entry point,
suppress-dialog clear and synthesize-address set. The synthesized record has
the non-continuable flag, the code unchanged and the placeholder as address
(the return address with the Microsoft compiler, the routine's address
without it), and the exit status is the code. -/
theorem end_to_end_stack_buffer_overrun :
    synthesizeRecord envVista (some recSentinel) 0x0001 =
      { recSentinel with ExceptionFlags := 1, ExceptionAddress := envVista.returnAddress } ∧
    synthesizeRecord envVistaPortable (some recSentinel) 0x0001 =
      { recSentinel with ExceptionFlags := 1,
                         ExceptionAddress := envVistaPortable.routineAddress } ∧
    RaiseFailFastException_Runtime envVista (some recSentinel) none 0x0001 worldStart =
      .halted (.terminated 0xC0000409)
        { errorMode := 1,
          calls := [OsCall.RaiseException 0xC0000409 1 0 none,
                    OsCall.TerminateProcess 0xC0000409],
          accesses := [] } ∧
    RaiseFailFastException_Runtime envVistaPortable (some recSentinel) none 0x0001 worldStart =
      .halted (.terminated 0xC0000409)
        { errorMode := 1,
          calls := [OsCall.RaiseException 0xC0000409 1 0 none,
                    OsCall.TerminateProcess 0xC0000409],
          accesses := [] } := by
  decide

end VmErrorWindows
